import Mathlib

set_option linter.unusedVariables false

/-! Shallow embedding of the cluster-model loader in ceph_monitoring/cluster.py.

Python dictionaries are modelled as association lists with insertion-order
semantics (dictInsert replaces in place, appends otherwise); Python exceptions
(KeyError, AssertionError, ZeroDivisionError, AttributeError) are modelled with
Except; numpy float arrays are modelled as lists of rationals, with an explicit
four-way value type (finite, +inf, -inf, NaN) where IEEE special values matter.
-/

/-- Python-dict insertion into an association list: when the key is already
bound, the binding is replaced in place; otherwise it is appended. -/
def dictInsert {α β : Type} [DecidableEq α] : List (α × β) → α → β → List (α × β)
  | [], k, v => [(k, v)]
  | (k0, v0) :: rest, k, v =>
    if k0 = k then (k, v) :: rest else (k0, v0) :: dictInsert rest k v

/-- Python-dict lookup in an association list (first binding wins). -/
def dictLookup {α β : Type} [DecidableEq α] : List (α × β) → α → Option β
  | [], _ => none
  | (k0, v0) :: rest, k => if k0 = k then some v0 else dictLookup rest k

/-! ### C1: OSD registration loop of CephCluster.load_osds (cluster.py 651-658)

The CephOSD constructor sets `self.id = None` (line 26).  The loop body is

    osd = CephOSD()
    self.osds.append(osd)
    self.osd_map[osd.id] = osd      -- osd.id is still None here
    ...
    osd.id = osd_data[osd]

Aliasing matters (the dict holds a reference to the object mutated afterwards),
so the heap is modelled explicitly: the list of constructed OSD objects is the
heap and an object is identified by its index in it. -/

/-- The only CephOSD field the registration loop touches: `id`, initialized to
None by the constructor. -/
structure CephOSDRec where
  id : Option Int
deriving DecidableEq, Repr

/-- One iteration of the loop at cluster.py lines 651-658, restricted to the
statements that build `self.osds` and `self.osd_map`: construct the OSD (id is
None), append it to the OSD list, insert it into osd_map under the key
`osd.id` as it is at that moment, and only then assign `osd.id` from the
parsed record (mutation of the heap object). -/
def regStep (st : List CephOSDRec × List (Option Int × Nat)) (osd_data_osd : Int) :
    List CephOSDRec × List (Option Int × Nat) :=
  let heap := st.1
  let osd_map := st.2
  let osd : CephOSDRec := { id := none }
  let idx := heap.length
  let heap1 := heap ++ [osd]
  let osd_map1 := dictInsert osd_map osd.id idx
  let heap2 := heap1.set idx { osd with id := some osd_data_osd }
  (heap2, osd_map1)

/-- The registration part of CephCluster.load_osds over the ids found in the
osd_dump records: returns the final heap of OSD objects (= self.osds, in
order) and the final osd_map (keys are the values `osd.id` had at insertion
time, values are heap indices standing for object identity). -/
def load_osds_register (dump_ids : List Int) : List CephOSDRec × List (Option Int × Nat) :=
  dump_ids.foldl regStep ([], [])

/-! ### C2: per-OSD storage fields of CephCluster.load_osds (672-673, 675-707) -/

/-- Python dict subscript: KeyError when the key is absent. -/
def dget (d : List (String × String)) (k : String) : Except String String :=
  match dictLookup d k with
  | some v => Except.ok v
  | none => Except.error ("KeyError " ++ k)

/-- The CephOSD fields written by lines 675-707 of load_osds.  Every field is
None after construction (cluster.py lines 38-57); the defaults express that. -/
structure OsdStorageFields where
  storage_type : Option String := none
  data_dev : Option String := none
  data_partition : Option String := none
  journal_dev : Option String := none
  journal_partition : Option String := none
  db_dev : Option String := none
  db_partition : Option String := none
  wal_dev : Option String := none
  wal_partition : Option String := none
  used_space : Option ℚ := none
  free_space : Option ℚ := none
  free_perc : Option ℤ := none
deriving DecidableEq, Repr

/-- Lines 679-702: backend-specific device fields.  `if storage_type ==
filestore` reads data+journal keys; the else branch asserts `storage_type ==
bluestore` and reads data+db+wal keys; any other tag fails the assertion. -/
def loadOsdDevs (stp : String) (devs_cfg : List (String × String)) :
    Except String OsdStorageFields :=
  if stp = "filestore" then do
    let dd ← dget devs_cfg "r_data"
    let dp ← dget devs_cfg "data"
    let jd ← dget devs_cfg "r_journal"
    let jp ← dget devs_cfg "journal"
    Except.ok { storage_type := some stp
                data_dev := some dd
                data_partition := some dp
                journal_dev := some jd
                journal_partition := some jp }
  else if stp = "bluestore" then do
    let dd ← dget devs_cfg "r_data"
    let dp ← dget devs_cfg "data"
    let bd ← dget devs_cfg "r_db"
    let bp ← dget devs_cfg "db"
    let wd ← dget devs_cfg "r_wal"
    let wp ← dget devs_cfg "wal"
    Except.ok { storage_type := some stp
                data_dev := some dd
                data_partition := some dp
                db_dev := some bd
                db_partition := some bp
                wal_dev := some wd
                wal_partition := some wp }
  else Except.error "AssertionError"

/-- Lines 672-707 of load_osds for one OSD: a down OSD skips everything
(`continue`, line 672-673) leaving every field None; an up OSD resolves the
backend device fields from devs_cfg, then sets used_space = kb_used * 1024,
free_space = kb_avail * 1024 and free_perc = int(free * 100.0 / (free + used)
+ 0.5).  The int() truncation equals the floor here because its argument is
nonnegative; float division by zero raises ZeroDivisionError in Python, which
the zero test models. -/
def loadOsdStorage (status : String) (devs_cfg : List (String × String))
    (kb_used kb_avail : ℕ) : Except String OsdStorageFields :=
  if status = "down" then Except.ok {}
  else
    match dget devs_cfg "type" with
    | Except.error e => Except.error e
    | Except.ok stp =>
      match loadOsdDevs stp devs_cfg with
      | Except.error e => Except.error e
      | Except.ok base =>
        let used : ℚ := (kb_used : ℚ) * 1024
        let free : ℚ := (kb_avail : ℚ) * 1024
        if free + used = 0 then Except.error "ZeroDivisionError"
        else
          Except.ok { base with
                      used_space := some used
                      free_space := some free
                      free_perc := some ⌊free * 100 / (free + used) + 1 / 2⌋ }

/-- C1: the claim states that after load() the osd_map holds one entry per OSD
in the final list, keyed by that OSD id.  The code inserts under `osd.id`
before the id is assigned, so every insertion uses the key None: with the
two-OSD dump [0, 1] the final map is the single binding (None, index 1),
lookups under the real ids 0 and 1 find nothing, and in general the map never
has more than one entry no matter how many OSDs are loaded. -/
theorem C1_osd_map_keyed_by_none :
    load_osds_register [0, 1] = ([⟨some 0⟩, ⟨some 1⟩], [(none, 1)])
    ∧ dictLookup (load_osds_register [0, 1]).2 (some 0) = none
    ∧ dictLookup (load_osds_register [0, 1]).2 (some 1) = none
    ∧ (load_osds_register [0, 1]).1.length = 2
    ∧ ∀ ids : List Int, (load_osds_register ids).2.length ≤ 1 := by
  refine ⟨by decide, by decide, by decide, by decide, ?_⟩
  have key : ∀ (ids : List Int) (st : List CephOSDRec × List (Option Int × Nat)),
      (st.2 = [] ∨ ∃ j, st.2 = [(none, j)]) →
      ((ids.foldl regStep st).2 = [] ∨ ∃ j, (ids.foldl regStep st).2 = [(none, j)]) := by
    intro ids
    induction ids with
    | nil => intro st h; exact h
    | cons i rest ih =>
      intro st h
      refine ih (regStep st i) ?_
      rcases h with h | ⟨j, h⟩ <;>
        simp [regStep, h, dictInsert]
  intro ids
  rcases key ids ([], []) (Or.inl rfl) with h | ⟨j, h⟩ <;>
    simp [load_osds_register] at h ⊢ <;> simp [h]

/-- C2: for an OSD with status up and positive used+free space, free_perc is
computed and equals round(100 * free / (free + used)), an integer in the range
0..100; for an OSD with status down the per-OSD loading is skipped entirely
(`continue`), leaving free_perc and every other storage/device field None. -/
theorem C2_free_perc_round_and_down_skip (status : String)
    (devs_cfg : List (String × String)) (kb_used kb_avail : ℕ) :
    (status = "down" →
      loadOsdStorage status devs_cfg kb_used kb_avail =
        Except.ok ⟨none, none, none, none, none, none, none, none, none, none, none, none⟩)
    ∧ (∀ res, status = "up" → 0 < kb_used + kb_avail →
        loadOsdStorage status devs_cfg kb_used kb_avail = Except.ok res →
        res.free_perc =
          some (round (100 * ((kb_avail : ℚ) * 1024) /
                       ((kb_avail : ℚ) * 1024 + (kb_used : ℚ) * 1024)))
        ∧ ∃ p : ℤ, res.free_perc = some p ∧ 0 ≤ p ∧ p ≤ 100) := by
  constructor
  · intro h; subst h; rfl
  · intro res hup hpos hres
    subst hup
    have hq : (0 : ℚ) < (kb_avail : ℚ) * 1024 + (kb_used : ℚ) * 1024 := by
      have h1 : (0 : ℚ) < ((kb_used + kb_avail : ℕ) : ℚ) := by exact_mod_cast hpos
      push_cast at h1
      nlinarith
    simp only [loadOsdStorage] at hres
    rw [if_neg (by decide : ¬ ("up" = "down"))] at hres
    split at hres
    · cases hres
    · split at hres
      · cases hres
      · split at hres
        · cases hres
        · simp only [Except.ok.injEq] at hres
          subst hres
          have hval : round (100 * ((kb_avail : ℚ) * 1024) /
              ((kb_avail : ℚ) * 1024 + (kb_used : ℚ) * 1024)) =
              ⌊(kb_avail : ℚ) * 1024 * 100 / ((kb_avail : ℚ) * 1024 + (kb_used : ℚ) * 1024)
                + 1 / 2⌋ := by
            rw [round_eq, mul_comm]
          have hx0 : 0 ≤ (kb_avail : ℚ) * 1024 * 100 /
              ((kb_avail : ℚ) * 1024 + (kb_used : ℚ) * 1024) := by positivity
          have hx100 : (kb_avail : ℚ) * 1024 * 100 /
              ((kb_avail : ℚ) * 1024 + (kb_used : ℚ) * 1024) ≤ 100 := by
            rw [div_le_iff₀ hq]
            nlinarith [Nat.cast_nonneg (α := ℚ) kb_used]
          refine ⟨by simp [hval], ?_⟩
          refine ⟨⌊(kb_avail : ℚ) * 1024 * 100 /
              ((kb_avail : ℚ) * 1024 + (kb_used : ℚ) * 1024) + 1 / 2⌋, by simp, ?_, ?_⟩
          · exact Int.le_floor.mpr (by push_cast; linarith)
          · have h101 : ⌊(kb_avail : ℚ) * 1024 * 100 /
                ((kb_avail : ℚ) * 1024 + (kb_used : ℚ) * 1024) + 1 / 2⌋ < 101 :=
              Int.floor_lt.mpr (by push_cast; linarith)
            omega

instance {ε α : Type} [DecidableEq ε] [DecidableEq α] : DecidableEq (Except ε α) :=
  fun a b =>
    match a, b with
    | Except.ok x, Except.ok y =>
      if h : x = y then isTrue (by rw [h]) else isFalse (by intro hh; cases hh; exact h rfl)
    | Except.error x, Except.error y =>
      if h : x = y then isTrue (by rw [h]) else isFalse (by intro hh; cases hh; exact h rfl)
    | Except.ok _, Except.error _ => isFalse (by intro hh; cases hh)
    | Except.error _, Except.ok _ => isFalse (by intro hh; cases hh)

/-- A concrete filestore devs_cfg artifact used to instantiate C2. -/
def c2cfg : List (String × String) :=
  [("type", "filestore"), ("r_data", "sda"), ("data", "sda1"),
   ("r_journal", "sdb"), ("journal", "sdb1")]

/-- The OSD fields load_osds produces for c2cfg with kb_used = 3, kb_avail = 1. -/
def c2res : OsdStorageFields :=
  { storage_type := some "filestore"
    data_dev := some "sda"
    data_partition := some "sda1"
    journal_dev := some "sdb"
    journal_partition := some "sdb1"
    used_space := some 3072
    free_space := some 1024
    free_perc := some 25 }

/-- Witness for C2 at a concrete up OSD (kb_used = 3, kb_avail = 1) and a
concrete down OSD. -/
theorem C2_free_perc_round_and_down_skip_witness :
    loadOsdStorage "down" [] 5 7 =
      Except.ok ⟨none, none, none, none, none, none, none, none, none, none, none, none⟩
    ∧ ∃ p : ℤ, c2res.free_perc = some p ∧ 0 ≤ p ∧ p ≤ 100 :=
  ⟨(C2_free_perc_round_and_down_skip "down" [] 5 7).1 rfl,
   ((C2_free_perc_round_and_down_skip "up" c2cfg 3 1).2 c2res rfl (by decide)
     (by norm_num +decide [loadOsdStorage, loadOsdDevs, dget, dictLookup, c2cfg, c2res])).2⟩

/-! ### C3: per-sample latency derivation in load_osds (cluster.py 709-722) -/

/-- Value of a numpy float32 cell as far as the latency derivation observes
it: a finite rational, +inf, -inf, or NaN. -/
inductive F32 : Type
  | fin (q : ℚ)
  | pinf
  | ninf
  | nan
deriving DecidableEq, Repr

/-- IEEE division as numpy performs it under errstate(divide=ignore,
invalid=ignore): finite quotient for a nonzero divisor; +inf (resp. -inf) for
a positive (resp. negative) dividend over zero; NaN for 0/0. -/
def fdiv (x y : ℚ) : F32 :=
  if y ≠ 0 then F32.fin (x / y)
  else if 0 < x then F32.pinf
  else if x < 0 then F32.ninf
  else F32.nan

/-- Lines 720-721: avg_vals[avg_vals == numpy.inf] = NO_VALUE and
avg_vals[numpy.isnan(avg_vals)] = NO_VALUE with NO_VALUE = -1.  Only +inf
compares equal to numpy.inf, so a -inf cell would survive. -/
def scrubNoValue : F32 → F32
  | F32.pinf => F32.fin (-1)
  | F32.nan => F32.fin (-1)
  | v => v

/-- numpy successive difference xs[1:] - xs[:-1]. -/
def deltas (xs : List ℚ) : List ℚ :=
  List.zipWith (fun a b => a - b) xs.tail xs

/-- Line 718 then 720-721: (values[1:] - values[:-1]) / (count[1:] -
count[:-1]), with the +inf and NaN cells replaced by the sentinel -1. -/
def deriveLatency (values counts : List ℚ) : List F32 :=
  (List.zipWith fdiv (deltas values) (deltas counts)).map scrubNoValue

lemma getElem?_zipWith_some {α β γ : Type} (f : α → β → γ) :
    ∀ (as : List α) (bs : List β) (i : ℕ) (a : α) (b : β),
      as[i]? = some a → bs[i]? = some b → (List.zipWith f as bs)[i]? = some (f a b) := by
  intro as
  induction as with
  | nil => intro bs i a b h _; simp at h
  | cons x xs ih =>
    intro bs i a b ha hb
    cases bs with
    | nil => simp at hb
    | cons y ys =>
      cases i with
      | zero =>
        simp only [List.getElem?_cons_zero, Option.some.injEq] at ha hb
        simp [List.zipWith, ha, hb]
      | succ n =>
        simp only [List.getElem?_cons_succ] at ha hb
        simpa [List.zipWith] using ih ys n a b ha hb

lemma zipWith_getElem?_some_rev {α β γ : Type} (f : α → β → γ)
    (as : List α) (bs : List β) (i : ℕ) (z : γ)
    (h : (List.zipWith f as bs)[i]? = some z) :
    ∃ a b, as[i]? = some a ∧ bs[i]? = some b ∧ z = f a b := by
  induction as generalizing bs i with
  | nil => simp at h
  | cons x xs ih =>
    cases bs with
    | nil => simp at h
    | cons y ys =>
      cases i with
      | zero =>
        simp only [List.zipWith, List.getElem?_cons_zero, Option.some.injEq] at h
        exact ⟨x, y, by simp, by simp, h.symm⟩
      | succ n =>
        simp only [List.zipWith, List.getElem?_cons_succ] at h ⊢
        exact ih ys n h

lemma getElem?_tail_eq {α : Type} (xs : List α) (i : ℕ) : xs.tail[i]? = xs[i + 1]? := by
  cases xs <;> simp

lemma deltas_getElem?_some (xs : List ℚ) (i : ℕ) (a b : ℚ)
    (ha : xs[i]? = some a) (hb : xs[i + 1]? = some b) :
    (deltas xs)[i]? = some (b - a) := by
  have h := getElem?_zipWith_some (fun u v => u - v) xs.tail xs i b a
    (by rw [getElem?_tail_eq]; exact hb) ha
  simpa [deltas] using h

lemma deltas_getElem?_some_rev (xs : List ℚ) (i : ℕ) (d : ℚ)
    (h : (deltas xs)[i]? = some d) :
    ∃ a b, xs[i]? = some a ∧ xs[i + 1]? = some b ∧ d = b - a := by
  obtain ⟨b, a, hb, ha, hd⟩ := zipWith_getElem?_some_rev _ xs.tail xs i d h
  rw [getElem?_tail_eq] at hb
  exact ⟨a, b, ha, hb, hd⟩

lemma chain'_le_of_getElem? {l : List ℚ} (hl : l.Chain' (· ≤ ·)) (i : ℕ) (a b : ℚ)
    (ha : l[i]? = some a) (hb : l[i + 1]? = some b) : a ≤ b := by
  have hb1 := List.getElem?_eq_some.1 hb
  have ha1 := List.getElem?_eq_some.1 ha
  obtain ⟨hib, hgb⟩ := hb1
  obtain ⟨hia, hga⟩ := ha1
  have hlt : i < l.length - 1 := by omega
  have h := List.chain'_iff_get.1 hl i hlt
  rw [List.get_eq_getElem, List.get_eq_getElem] at h
  simp only [hga, hgb] at h
  exact h

/-- C3: for performance-dump snapshots with monotonically nondecreasing
cumulative counters (equal-length sum and avgcount series), the derived
latency series has one fewer element than the raw series; at every index whose
count delta is positive it is the finite quotient of the successive
differences, at every index whose count delta is zero it is the sentinel -1,
and no cell of the result is NaN or an infinity. -/
theorem C3_latency_series (values counts : List ℚ)
    (hlen : counts.length = values.length)
    (hv : values.Chain' (· ≤ ·)) (hc : counts.Chain' (· ≤ ·)) :
    (deriveLatency values counts).length = values.length - 1
    ∧ (∀ i v0 v1 c0 c1, values[i]? = some v0 → values[i + 1]? = some v1 →
        counts[i]? = some c0 → counts[i + 1]? = some c1 →
        (0 < c1 - c0 →
          (deriveLatency values counts)[i]? = some (F32.fin ((v1 - v0) / (c1 - c0))))
        ∧ (c1 - c0 = 0 → (deriveLatency values counts)[i]? = some (F32.fin (-1))))
    ∧ (∀ x ∈ deriveLatency values counts, ∃ q : ℚ, x = F32.fin q) := by
  refine ⟨?_, ?_, ?_⟩
  · simp only [deriveLatency, deltas, List.length_map, List.length_zipWith,
      List.length_tail, hlen]
    omega
  · intro i v0 v1 c0 c1 hv0 hv1 hc0 hc1
    have hdv := deltas_getElem?_some values i v0 v1 hv0 hv1
    have hdc := deltas_getElem?_some counts i c0 c1 hc0 hc1
    have hz := getElem?_zipWith_some fdiv (deltas values) (deltas counts) i _ _ hdv hdc
    constructor
    · intro hpos
      have hfd : fdiv (v1 - v0) (c1 - c0) = F32.fin ((v1 - v0) / (c1 - c0)) := by
        simp [fdiv, ne_of_gt hpos]
      simp [deriveLatency, hz, hfd, scrubNoValue]
    · intro h0
      have hvd : 0 ≤ v1 - v0 := by
        have := chain'_le_of_getElem? hv i v0 v1 hv0 hv1
        linarith
      rcases lt_or_eq_of_le hvd with hpos | hzero
      · have hfd : fdiv (v1 - v0) (c1 - c0) = F32.pinf := by
          simp [fdiv, h0, hpos]
        simp [deriveLatency, hz, hfd, scrubNoValue]
      · have hfd : fdiv (v1 - v0) (c1 - c0) = F32.nan := by
          simp [fdiv, h0, ← hzero]
        simp [deriveLatency, hz, hfd, scrubNoValue]
  · intro x hx
    rw [List.mem_iff_getElem?] at hx
    obtain ⟨i, hi⟩ := hx
    simp only [deriveLatency, List.getElem?_map] at hi
    obtain ⟨y, hy, hsy⟩ := Option.map_eq_some'.1 hi
    obtain ⟨dv, dc, hdvs, hdcs, hyz⟩ := zipWith_getElem?_some_rev fdiv _ _ i y hy
    obtain ⟨v0, v1, hv0, hv1, hdveq⟩ := deltas_getElem?_some_rev values i dv hdvs
    obtain ⟨c0, c1, hc0, hc1, hdceq⟩ := deltas_getElem?_some_rev counts i dc hdcs
    have hvd : 0 ≤ dv := by
      have := chain'_le_of_getElem? hv i v0 v1 hv0 hv1
      rw [hdveq]; linarith
    have hcd : 0 ≤ dc := by
      have := chain'_le_of_getElem? hc i c0 c1 hc0 hc1
      rw [hdceq]; linarith
    rcases eq_or_lt_of_le hcd with hdc0 | hdcpos
    · rcases eq_or_lt_of_le hvd with hdv0 | hdvpos
      · refine ⟨-1, ?_⟩
        rw [← hsy, hyz, fdiv]
        simp [← hdc0, ← hdv0, scrubNoValue]
      · refine ⟨-1, ?_⟩
        rw [← hsy, hyz, fdiv]
        simp [← hdc0, hdvpos, scrubNoValue]
    · refine ⟨dv / dc, ?_⟩
      rw [← hsy, hyz, fdiv]
      simp [ne_of_gt hdcpos, scrubNoValue]

/-- Witness for C3 at the concrete snapshot series sum = [0, 2, 2],
avgcount = [0, 1, 1]: two derived samples, and at index 1 the count delta is
zero so the derived value is the sentinel -1. -/
theorem C3_latency_series_witness :
    List.Chain' (· ≤ ·) [(0 : ℚ), 2, 2]
    ∧ (deriveLatency [0, 2, 2] [0, 1, 1]).length = 2
    ∧ (deriveLatency [0, 2, 2] [0, 1, 1])[1]? = some (F32.fin (-1)) := by
  have h := C3_latency_series [0, 2, 2] [0, 1, 1] rfl
    (by norm_num [List.chain'_cons]) (by norm_num [List.chain'_cons])
  exact ⟨by norm_num [List.chain'_cons], h.1,
    (h.2.1 1 2 2 1 1 rfl rfl rfl rfl).2 (by norm_num)⟩

/-! ### C4: CephCluster.load_monitors (cluster.py 775-810) -/

/-- A monitor entry of the source listing (monmap mons when luminous, a legacy
health-services mons entry otherwise); only the legacy schema carries an
inline health value. -/
structure MonSrv where
  name : String
  health : Option Int
deriving DecidableEq, Repr

/-- A Host as far as load_monitors observes and mutates it. -/
structure HostRec where
  name : String
  mon_name : Option String
deriving DecidableEq, Repr

/-- The CephMonitor fields set by lines 784-792. -/
structure CephMonRec where
  name : String
  host : String
  health : Option Int
deriving DecidableEq, Repr

/-- The for loop with break at lines 794-797: set host.mon_name = mon.name on
the first host whose name equals mon.host, leaving the rest untouched; none
when no host matches, which is the for-else raise path of lines 798-801. -/
def assignMon : List HostRec → String → String → Option (List HostRec)
  | [], _, _ => none
  | h :: rest, monHost, monName =>
    if h.name = monHost then some ({ h with mon_name := some monName } :: rest)
    else (assignMon rest monHost monName).map (fun rest2 => h :: rest2)

/-- The monitor loop of load_monitors (lines 784-810): for each srv record
build a CephMonitor with name = host = srv.name and the schema-dependent
health field, resolve its host by exact name match (the for-else raises
ValueError when no host matches), and append the monitor to self.mons. -/
def load_monitors (is_luminous : Bool) (hosts : List HostRec) (mons : List MonSrv) :
    Except String (List HostRec × List CephMonRec) :=
  match mons with
  | [] => Except.ok (hosts, [])
  | srv :: rest =>
    let mon : CephMonRec :=
      { name := srv.name
        host := srv.name
        health := if is_luminous then none else srv.health }
    match assignMon hosts mon.host mon.name with
    | none => Except.error ("Cant found host for monitor " ++ mon.name)
    | some hosts2 =>
      match load_monitors is_luminous hosts2 rest with
      | Except.error e => Except.error e
      | Except.ok (hosts3, monsOut) => Except.ok (hosts3, mon :: monsOut)

lemma assignMon_eq_none_iff (hosts : List HostRec) (mh mn : String) :
    assignMon hosts mh mn = none ↔ ∀ h ∈ hosts, h.name ≠ mh := by
  induction hosts with
  | nil => simp [assignMon]
  | cons h rest ih =>
    simp only [assignMon]
    by_cases hname : h.name = mh
    · simp [hname]
    · simp [hname, Option.map_eq_none', ih]

lemma assignMon_names (hosts : List HostRec) (mh mn : String) (hosts2 : List HostRec)
    (h : assignMon hosts mh mn = some hosts2) :
    hosts2.map HostRec.name = hosts.map HostRec.name := by
  induction hosts generalizing hosts2 with
  | nil => simp [assignMon] at h
  | cons h0 rest ih =>
    simp only [assignMon] at h
    by_cases hname : h0.name = mh
    · rw [if_pos hname] at h
      simp only [Option.some.injEq] at h
      subst h
      simp
    · rw [if_neg hname] at h
      obtain ⟨rest2, hrec, heq⟩ := Option.map_eq_some'.1 h
      subst heq
      simp [ih rest2 hrec]

lemma load_monitors_ok_mem (is_luminous : Bool) :
    ∀ (mons : List MonSrv) (hosts hostsOut : List HostRec) (monsOut : List CephMonRec),
      load_monitors is_luminous hosts mons = Except.ok (hostsOut, monsOut) →
      ∀ mon ∈ monsOut, mon.host ∈ hosts.map HostRec.name := by
  intro mons
  induction mons with
  | nil =>
    intro hosts hostsOut monsOut hok mon hmon
    simp only [load_monitors, Except.ok.injEq, Prod.mk.injEq] at hok
    rw [← hok.2] at hmon
    cases hmon
  | cons srv rest ih =>
    intro hosts hostsOut monsOut hok mon hmon
    simp only [load_monitors] at hok
    split at hok
    · cases hok
    · rename_i hosts2 hassign
      split at hok
      · cases hok
      · rename_i hosts3 monsOut2 hrec
        simp only [Except.ok.injEq, Prod.mk.injEq] at hok
        rw [← hok.2] at hmon
        rcases List.mem_cons.1 hmon with hhead | htail
        · have hnn : ¬ (assignMon hosts srv.name srv.name = none) := by
            rw [hassign]; intro hcc; cases hcc
          rw [assignMon_eq_none_iff] at hnn
          push_neg at hnn
          obtain ⟨h, hin, hnameeq⟩ := hnn
          have : mon.host = srv.name := by rw [hhead]
          rw [this, ← hnameeq]
          exact List.mem_map_of_mem HostRec.name hin
        · have := ih hosts2 hosts3 monsOut2 hrec mon htail
          rwa [assignMon_names hosts srv.name srv.name hosts2 hassign] at this

lemma load_monitors_missing_raises (is_luminous : Bool) :
    ∀ (mons : List MonSrv) (hosts : List HostRec),
      (∃ srv ∈ mons, ∀ h ∈ hosts, h.name ≠ srv.name) →
      ∃ e, load_monitors is_luminous hosts mons = Except.error e := by
  intro mons
  induction mons with
  | nil => intro hosts h; simp at h
  | cons srv rest ih =>
    rintro hosts ⟨srv0, hsrv0, hnone⟩
    cases hassign : assignMon hosts srv.name srv.name with
    | none =>
      refine ⟨"Cant found host for monitor " ++ srv.name, ?_⟩
      simp [load_monitors, hassign]
    | some hosts2 =>
      rcases List.mem_cons.1 hsrv0 with heq | hmem
      · subst heq
        exfalso
        have hno : assignMon hosts srv0.name srv0.name = none :=
          (assignMon_eq_none_iff hosts srv0.name srv0.name).2 hnone
        rw [hassign] at hno
        cases hno
      · have hnames := assignMon_names hosts srv.name srv.name hosts2 hassign
        have hnone2 : ∀ h ∈ hosts2, h.name ≠ srv0.name := by
          intro h hin
          have hmm : h.name ∈ hosts2.map HostRec.name := List.mem_map_of_mem HostRec.name hin
          rw [hnames] at hmm
          obtain ⟨h0, hin0, heq0⟩ := List.mem_map.1 hmm
          rw [← heq0]
          exact hnone h0 hin0
        obtain ⟨e, he⟩ := ih hosts2 ⟨srv0, hmem, hnone2⟩
        refine ⟨e, ?_⟩
        simp [load_monitors, hassign, he]

/-- C4: when load_monitors succeeds, every loaded monitor's host attribute is
the name of some previously loaded Host; and when some monitor entry has a
name matching no loaded Host, load_monitors raises (it never silently drops
the monitor). -/
theorem C4_monitor_host_resolution (is_luminous : Bool) (hosts : List HostRec)
    (mons : List MonSrv) :
    (∀ hostsOut monsOut,
      load_monitors is_luminous hosts mons = Except.ok (hostsOut, monsOut) →
      ∀ mon ∈ monsOut, mon.host ∈ hosts.map HostRec.name)
    ∧ ((∃ srv ∈ mons, ∀ h ∈ hosts, h.name ≠ srv.name) →
      ∃ e, load_monitors is_luminous hosts mons = Except.error e) :=
  ⟨fun hostsOut monsOut hok => load_monitors_ok_mem is_luminous mons hosts hostsOut monsOut hok,
   fun hex => load_monitors_missing_raises is_luminous mons hosts hex⟩

/-- Witness for C4: a bundle with hosts h1, h2 and monitors named h1 (resolves,
so every monitor host is a host name) and a bundle whose monitor m9 matches no
host (load_monitors raises). -/
theorem C4_monitor_host_resolution_witness :
    (∀ mon ∈ [({ name := "h1", host := "h1", health := some 3 } : CephMonRec)],
      mon.host ∈ ([⟨"h1", none⟩, ⟨"h2", none⟩] : List HostRec).map HostRec.name)
    ∧ ∃ e, load_monitors false [⟨"h1", none⟩] [⟨"m9", some 3⟩] = Except.error e := by
  constructor
  · exact (C4_monitor_host_resolution false [⟨"h1", none⟩, ⟨"h2", none⟩] [⟨"h1", some 3⟩]).1
      [⟨"h1", some "h1"⟩, ⟨"h2", none⟩] [⟨"h1", "h1", some 3⟩] (by decide)
  · exact (C4_monitor_host_resolution false [⟨"h1", none⟩] [⟨"m9", some 3⟩]).2
      ⟨⟨"m9", some 3⟩, by decide, by decide⟩

/-! ### C5: pool usage merge of CephCluster.load_pools (cluster.py 766-773) -/

/-- A JSON scalar inside a rados_df pool record. -/
inductive JVal : Type
  | s (v : String)
  | n (v : Int)
deriving DecidableEq, Repr

/-- Python dict.update: insert every binding of the update, in order. -/
def dictUpdate (d upd : List (String × JVal)) : List (String × JVal) :=
  upd.foldl (fun acc kv => dictInsert acc kv.1 kv.2) d

/-- Python del d[k]: KeyError when the key is absent, otherwise the dict
without that binding. -/
def dictDel (d : List (String × JVal)) (k : String) :
    Except String (List (String × JVal)) :=
  match dictLookup d k with
  | none => Except.error ("KeyError " ++ k)
  | some _ => Except.ok (d.filter (fun kv => kv.1 != k))

/-- One rados_df pool record: its plain fields (id included) and the optional
categories list of category records. -/
structure PoolPart where
  fields : List (String × JVal)
  categories : Option (List (List (String × JVal)))
deriving DecidableEq, Repr

/-- Lines 766-773 of load_pools for one rados_df record, applied to the
attribute dict of the Pool with the matching id: without a categories key the
whole record updates the pool dict; otherwise the assert requires exactly one
category, a copy of which loses its name key (del) and updates the pool
dict. -/
def mergePoolUsage (pool : List (String × JVal)) (part : PoolPart) :
    Except String (List (String × JVal)) :=
  match part.categories with
  | none => Except.ok (dictUpdate pool part.fields)
  | some cats =>
    match cats with
    | [cat] =>
      match dictDel cat "name" with
      | Except.error e => Except.error e
      | Except.ok cat2 => Except.ok (dictUpdate pool cat2)
    | _ => Except.error "AssertionError"

/-- C5: a usage record without a categories key merges directly into the
Pool; a record with exactly one category (carrying a name key) merges the
category minus its name key; a record with two or more categories makes the
load raise its assertion. -/
theorem C5_pool_usage_merge (pool : List (String × JVal)) (part : PoolPart) :
    (part.categories = none →
      mergePoolUsage pool part = Except.ok (dictUpdate pool part.fields))
    ∧ (∀ cat, part.categories = some [cat] → dictLookup cat "name" ≠ none →
      mergePoolUsage pool part =
        Except.ok (dictUpdate pool (cat.filter (fun kv => kv.1 != "name"))))
    ∧ (∀ cats, part.categories = some cats → 2 ≤ cats.length →
      mergePoolUsage pool part = Except.error "AssertionError") := by
  refine ⟨?_, ?_, ?_⟩
  · intro h
    simp [mergePoolUsage, h]
  · intro cat hcats hname
    cases hlook : dictLookup cat "name" with
    | none => exact absurd hlook hname
    | some v => simp [mergePoolUsage, hcats, dictDel, hlook]
  · intro cats hcats hlen
    match cats, hlen with
    | c1 :: c2 :: rest, _ => simp [mergePoolUsage, hcats]

/-- Witness for C5: a single-category record with fields name = cat1 and
read_ops = 5 merges as the category minus the name key; a two-category record
raises the assertion. -/
theorem C5_pool_usage_merge_witness :
    mergePoolUsage [("size", JVal.n 3)]
        ⟨[("id", JVal.n 1)], some [[("name", JVal.s "cat1"), ("read_ops", JVal.n 5)]]⟩ =
      Except.ok (dictUpdate [("size", JVal.n 3)]
        ([("name", JVal.s "cat1"), ("read_ops", JVal.n 5)].filter (fun kv => kv.1 != "name")))
    ∧ mergePoolUsage []
        ⟨[], some [[("name", JVal.s "a")], [("name", JVal.s "b")]]⟩ =
      Except.error "AssertionError" :=
  ⟨(C5_pool_usage_merge [("size", JVal.n 3)]
      ⟨[("id", JVal.n 1)], some [[("name", JVal.s "cat1"), ("read_ops", JVal.n 5)]]⟩).2.1
      [("name", JVal.s "cat1"), ("read_ops", JVal.n 5)] rfl (by decide),
   (C5_pool_usage_merge [] ⟨[], some [[("name", JVal.s "a")], [("name", JVal.s "b")]]⟩).2.2
      [[("name", JVal.s "a")], [("name", JVal.s "b")]] rfl (by decide)⟩

/-! ### C6: parse_netdev (cluster.py 183-198)

Python strings are modelled as lists of characters; str.strip, str.split(sep)
and the whitespace str.split() are given explicit structural definitions. -/

/-- The newline character. -/
def nlChar : Char := Char.ofNat 10

/-- Python whitespace as far as strip and split() are concerned. -/
def pyWhitespace (c : Char) : Bool :=
  c = ' ' || c = Char.ofNat 9 || c = Char.ofNat 10 || c = Char.ofNat 13

/-- Python s.split(sep) for a one-character separator: n occurrences of the
separator produce n+1 pieces, empties kept. -/
def splitOnChar (sep : Char) : List Char → List (List Char)
  | [] => [[]]
  | c :: rest =>
    let r := splitOnChar sep rest
    if c = sep then [] :: r
    else
      match r with
      | [] => [[c]]
      | g :: gs => (c :: g) :: gs

/-- Splitting on every character satisfying a predicate, empties kept. -/
def splitOnWsRuns : List Char → List (List Char)
  | [] => [[]]
  | c :: rest =>
    let r := splitOnWsRuns rest
    if pyWhitespace c then [] :: r
    else
      match r with
      | [] => [[c]]
      | g :: gs => (c :: g) :: gs

/-- Python s.split() with no argument: split on whitespace runs, discarding
empty pieces. -/
def pySplitWs (cs : List Char) : List (List Char) :=
  (splitOnWsRuns cs).filter (fun g => !g.isEmpty)

/-- Python s.strip(): drop whitespace from both ends. -/
def pyStrip (cs : List Char) : List Char :=
  ((cs.dropWhile pyWhitespace).reverse.dropWhile pyWhitespace).reverse

/-- Python int(s) restricted to an optional minus sign and decimal digits;
none models the ValueError on anything else. -/
def parseNatDigits (cs : List Char) : Option ℕ :=
  if cs.isEmpty then none
  else
    cs.foldl
      (fun acc c =>
        match acc with
        | none => none
        | some n => if c.isDigit then some (n * 10 + (c.toNat - 48)) else none)
      (some 0)

def parseIntChars (cs : List Char) : Option Int :=
  match cs with
  | '-' :: rest => (parseNatDigits rest).map (fun n => -(n : Int))
  | _ => (parseNatDigits cs).map (fun n => (n : Int))

/-- The NetStats namedtuple (cluster.py 183-187): 8 receive counters followed
by 8 send counters, 16 fields in all. -/
structure NetStats where
  recv_bytes : Int
  recv_packets : Int
  rerrs : Int
  rdrop : Int
  rfifo : Int
  rframe : Int
  rcompressed : Int
  rmulticast : Int
  send_bytes : Int
  send_packets : Int
  serrs : Int
  sdrop : Int
  sfifo : Int
  scolls : Int
  scarrier : Int
  scompressed : Int
deriving DecidableEq, Repr

/-- NetStats(*values): the namedtuple constructor call succeeds exactly when
the argument count equals the field count (16), assigning positionally;
anything else raises TypeError. -/
def mkNetStats (vals : List Int) : Option NetStats :=
  if h : vals.length = 16 then
    some { recv_bytes := vals.get ⟨0, by omega⟩
           recv_packets := vals.get ⟨1, by omega⟩
           rerrs := vals.get ⟨2, by omega⟩
           rdrop := vals.get ⟨3, by omega⟩
           rfifo := vals.get ⟨4, by omega⟩
           rframe := vals.get ⟨5, by omega⟩
           rcompressed := vals.get ⟨6, by omega⟩
           rmulticast := vals.get ⟨7, by omega⟩
           send_bytes := vals.get ⟨8, by omega⟩
           send_packets := vals.get ⟨9, by omega⟩
           serrs := vals.get ⟨10, by omega⟩
           sdrop := vals.get ⟨11, by omega⟩
           sfifo := vals.get ⟨12, by omega⟩
           scolls := vals.get ⟨13, by omega⟩
           scarrier := vals.get ⟨14, by omega⟩
           scompressed := vals.get ⟨15, by omega⟩ }
  else none

/-- Line 193-196 for one line: adapter, data = line.split(":") raises
ValueError unless the split yields exactly two pieces; the adapter is
stripped; the data piece is whitespace-split, each token parsed as int, and
the tokens passed positionally to NetStats. -/
def parseNetdevLine (line : List Char) : Except String (List Char × NetStats) :=
  match splitOnChar ':' line with
  | [adapter, dataPart] =>
    match (pySplitWs dataPart).mapM parseIntChars with
    | none => Except.error "ValueError int"
    | some vals =>
      match mkNetStats vals with
      | none => Except.error "TypeError NetStats arity"
      | some st => Except.ok (pyStrip adapter, st)
  | _ => Except.error "ValueError unpack"

/-- The loop of parse_netdev over the post-header lines, carrying the info
dict; `assert adapter not in info` raises on a duplicate adapter name. -/
def parseNetdevLines : List (List Char) → List (List Char × NetStats) →
    Except String (List (List Char × NetStats))
  | [], acc => Except.ok acc
  | line :: rest, acc =>
    match parseNetdevLine line with
    | Except.error e => Except.error e
    | Except.ok (adapter, st) =>
      if (dictLookup acc adapter).isSome then Except.error "AssertionError"
      else parseNetdevLines rest (acc ++ [(adapter, st)])

/-- parse_netdev (cluster.py 190-198): strip the text, split into lines, skip
the fixed two-line header, parse each remaining line. -/
def parse_netdev (netdev : List Char) : Except String (List (List Char × NetStats)) :=
  parseNetdevLines ((splitOnChar nlChar (pyStrip netdev)).drop 2) []

/-- A well-formed two-line header followed by a data line with 15 counters. -/
def c6input15 : List Char :=
  "Inter-| Receive".toList ++ [nlChar] ++ " face |bytes packets".toList ++ [nlChar]
  ++ "eth0: 1 2 3 4 5 6 7 8 9 10 11 12 13 14 15".toList

/-- The same header with a data line carrying 16 counters. -/
def c6input16 : List Char :=
  "Inter-| Receive".toList ++ [nlChar] ++ " face |bytes packets".toList ++ [nlChar]
  ++ "eth0: 1 2 3 4 5 6 7 8 9 10 11 12 13 14 15 16".toList

/-- The 16-counter data line repeated for the same adapter name. -/
def c6inputDup : List Char :=
  c6input16 ++ [nlChar] ++ "eth0: 1 2 3 4 5 6 7 8 9 10 11 12 13 14 15 16".toList

/-- C6 counterexample: the claim says each line carries an adapter name and 15
whitespace-separated integer counters, but the NetStats namedtuple has 16
fields (8 receive + 8 send), so a line with exactly 15 counters is rejected
with a TypeError rather than parsed by the claimed positional schema. -/
theorem C6_counterexample_15_counters :
    parse_netdev c6input15 = Except.error "TypeError NetStats arity" := by decide

/-- C6 amended: the parser skips a fixed two-line header (the two header lines
below would fail the colon unpacking if they were parsed), splits each
remaining line on the colon into an adapter name and 16 whitespace-separated
integer counters assigned by the fixed positional schema, and asserts when
the same adapter name appears twice.  The NetStats constructor accepts a
token list exactly when it has 16 elements. -/
theorem C6_netdev_16_counter_schema :
    (∀ vals : List Int, (mkNetStats vals).isSome ↔ vals.length = 16)
    ∧ parse_netdev c6input16 =
      Except.ok [("eth0".toList,
        ⟨1, 2, 3, 4, 5, 6, 7, 8, 9, 10, 11, 12, 13, 14, 15, 16⟩)]
    ∧ parse_netdev c6inputDup = Except.error "AssertionError" := by
  refine ⟨?_, by decide, by decide⟩
  intro vals
  by_cases h : vals.length = 16 <;> simp [mkNetStats, h]

/-! ### C7: CephCluster.load_PG_distribution fallback (cluster.py 594-613)

The fallback loop iterates the osd storage folder as (is_file, name) pairs, so
`node` is the directory-name string.  The test at line 600 is the Python
substring test `pgs in node` applied to that name, and line 601 would read the
attribute `pgs` of a str, which raises AttributeError; both are modelled
exactly as written. -/

/-- Python str.isdigit restricted to ASCII digits: nonempty and all digits. -/
def pyIsdigit (cs : List Char) : Bool :=
  !cs.isEmpty && cs.all Char.isDigit

def startsWithChars : List Char → List Char → Bool
  | [], _ => true
  | _ :: _, [] => false
  | n :: ns, h :: hs => n = h && startsWithChars ns hs

/-- Python substring test `needle in hay`. -/
def containsChars (needle : List Char) : List Char → Bool
  | [] => needle.isEmpty
  | c :: rest => startsWithChars needle (c :: rest) || containsChars needle rest

/-- The three PG counters of load_PG_distribution plus the single-warning
flag (pg_missing_reported) and a count of warnings logged. -/
structure PGDistState where
  osd_pool_pg_2d : List (Int × List (String × ℕ))
  sum_per_pool : List (String × ℕ)
  sum_per_osd : List (Int × ℕ)
  pg_missing_reported : Bool
  warnings : ℕ
deriving DecidableEq, Repr

/-- One iteration of the fallback loop (lines 597-613).  The pgs_listing and
pool_id2name arguments carry the per-OSD text listings and the pool-name
table the intended code would consult; the loop as written never reads
either: `containsChars pgs node` is the substring test on the directory name,
and the branch it guards would crash on the str attribute access. -/
def pgFallbackStep (pgs_listing : String → Option String)
    (pool_id2name : List (Int × String)) (st : PGDistState) (entry : Bool × String) :
    Except String PGDistState :=
  let is_file := entry.1
  let node := entry.2
  if !is_file && pyIsdigit node.toList then
    if containsChars "pgs".toList node.toList then
      Except.error "AttributeError: str object has no attribute pgs"
    else if !st.pg_missing_reported then
      Except.ok { st with
                  pg_missing_reported := true
                  warnings := st.warnings + 1 }
    else Except.ok st
  else Except.ok st

def pgFallbackLoop (pgs_listing : String → Option String)
    (pool_id2name : List (Int × String)) :
    List (Bool × String) → PGDistState → Except String PGDistState
  | [], st => Except.ok st
  | e :: rest, st =>
    match pgFallbackStep pgs_listing pool_id2name st e with
    | Except.error err => Except.error err
    | Except.ok st2 => pgFallbackLoop pgs_listing pool_id2name rest st2

/-- The pg_dump-absent branch of load_PG_distribution: counters start empty
(defaultdict and Counter), pg_missing_reported starts False. -/
def load_PG_distribution_fallback (pgs_listing : String → Option String)
    (pool_id2name : List (Int × String)) (entries : List (Bool × String)) :
    Except String PGDistState :=
  pgFallbackLoop pgs_listing pool_id2name entries ⟨[], [], [], false, 0⟩

lemma startsWithChars_mem :
    ∀ (needle hay : List Char), startsWithChars needle hay = true →
      ∀ c ∈ needle, c ∈ hay := by
  intro needle
  induction needle with
  | nil => intro hay _ c hc; cases hc
  | cons n ns ih =>
    intro hay hs c hc
    cases hay with
    | nil => simp [startsWithChars] at hs
    | cons h hsx =>
      simp only [startsWithChars, Bool.and_eq_true, decide_eq_true_eq] at hs
      rcases List.mem_cons.1 hc with hceq | hcm
      · rw [hceq, ← hs.1]; exact List.mem_cons_self n hsx
      · exact List.mem_cons_of_mem h (ih hsx hs.2 c hcm)

lemma containsChars_mem (needle : List Char) :
    ∀ (hay : List Char), containsChars needle hay = true →
      ∀ c ∈ needle, c ∈ hay := by
  intro hay
  induction hay with
  | nil =>
    intro h c hc
    simp only [containsChars, List.isEmpty_iff] at h
    rw [h] at hc
    cases hc
  | cons x rest ih =>
    intro h c hc
    simp only [containsChars, Bool.or_eq_true] at h
    rcases h with h | h
    · exact startsWithChars_mem needle (x :: rest) h c hc
    · exact List.mem_cons_of_mem x (ih h c hc)

lemma digits_never_contain_pgs (node : String) (hd : pyIsdigit node.toList = true) :
    containsChars "pgs".toList node.toList = false := by
  by_contra h
  rw [Bool.not_eq_false] at h
  have hp : 'p' ∈ node.toList := by
    refine containsChars_mem "pgs".toList node.toList h 'p' ?_
    simp [String.toList]
  simp only [pyIsdigit, Bool.and_eq_true, List.all_eq_true] at hd
  have := hd.2 'p' hp
  simp [Char.isDigit] at this

/-- C7: the fallback loop never populates any of the three PG counters no
matter what entries, per-OSD listings and pool table it is given (the
substring test `pgs in node` applied to a digit-only directory name is always
false, so the crediting branch is dead code); it logs at most one warning per
load; and at the concrete failing input of two OSD folders 0 and 1 with
listings present it exits with empty counters and exactly one warning. -/
theorem C7_pg_fallback_counters_stay_empty (pgs_listing : String → Option String)
    (pool_id2name : List (Int × String)) (entries : List (Bool × String)) :
    (∃ st, load_PG_distribution_fallback pgs_listing pool_id2name entries = Except.ok st
      ∧ st.osd_pool_pg_2d = [] ∧ st.sum_per_pool = [] ∧ st.sum_per_osd = []
      ∧ st.warnings ≤ 1)
    ∧ load_PG_distribution_fallback (fun _ => some "1.0 2.0") [(1, "rbd")]
        [(false, "0"), (false, "1")] = Except.ok ⟨[], [], [], true, 1⟩ := by
  constructor
  · have key : ∀ (es : List (Bool × String)) (st : PGDistState),
        st.osd_pool_pg_2d = [] → st.sum_per_pool = [] → st.sum_per_osd = [] →
        st.warnings ≤ 1 → (st.pg_missing_reported = false → st.warnings = 0) →
        ∃ st2, pgFallbackLoop pgs_listing pool_id2name es st = Except.ok st2
          ∧ st2.osd_pool_pg_2d = [] ∧ st2.sum_per_pool = [] ∧ st2.sum_per_osd = []
          ∧ st2.warnings ≤ 1 := by
      intro es
      induction es with
      | nil =>
        intro st h1 h2 h3 h4 h5
        exact ⟨st, rfl, h1, h2, h3, h4⟩
      | cons e rest ih =>
        intro st h1 h2 h3 h4 h5
        obtain ⟨isf, node⟩ := e
        cases isf with
        | true =>
          have hstep : pgFallbackStep pgs_listing pool_id2name st (true, node) =
              Except.ok st := by simp [pgFallbackStep]
          obtain ⟨st2, hloop, p1, p2, p3, p4⟩ := ih st h1 h2 h3 h4 h5
          exact ⟨st2, by simp [pgFallbackLoop, hstep, hloop], p1, p2, p3, p4⟩
        | false =>
          by_cases hdig : pyIsdigit node.toList = true
          · have hnp := digits_never_contain_pgs node hdig
            have hnp2 : containsChars ['p', 'g', 's'] node.data = false := by
              simpa using hnp
            have hdig2 : pyIsdigit node.data = true := by simpa using hdig
            by_cases hrep : st.pg_missing_reported = false
            · have hwz := h5 hrep
              have hstep : pgFallbackStep pgs_listing pool_id2name st (false, node) =
                  Except.ok { st with
                              pg_missing_reported := true
                              warnings := st.warnings + 1 } := by
                simp [pgFallbackStep, hdig2, hnp2, hrep]
              obtain ⟨st2, hloop, p1, p2, p3, p4⟩ :=
                ih { st with
                     pg_missing_reported := true
                     warnings := st.warnings + 1 }
                  h1 h2 h3 (by simp [hwz]) (by simp)
              exact ⟨st2, by simp [pgFallbackLoop, hstep, hloop], p1, p2, p3, p4⟩
            · rw [Bool.not_eq_false] at hrep
              have hstep : pgFallbackStep pgs_listing pool_id2name st (false, node) =
                  Except.ok st := by
                simp [pgFallbackStep, hdig2, hnp2, hrep]
              obtain ⟨st2, hloop, p1, p2, p3, p4⟩ := ih st h1 h2 h3 h4 h5
              exact ⟨st2, by simp [pgFallbackLoop, hstep, hloop], p1, p2, p3, p4⟩
          · have hdig2 : ¬ (pyIsdigit node.data = true) := by simpa using hdig
            have hstep : pgFallbackStep pgs_listing pool_id2name st (false, node) =
                Except.ok st := by
              simp [pgFallbackStep, hdig2]
            obtain ⟨st2, hloop, p1, p2, p3, p4⟩ := ih st h1 h2 h3 h4 h5
            exact ⟨st2, by simp [pgFallbackLoop, hstep, hloop], p1, p2, p3, p4⟩
    exact key entries ⟨[], [], [], false, 0⟩ rfl rfl rfl (by simp) (by simp)
  · decide

/-! ### C8: adapter load in CephCluster.load_interfaces (cluster.py 519-530) -/

/-- The NetLoad fields (cluster.py 88-97), all None at construction. -/
structure NetLoadRec where
  send_bytes : Option (List ℚ) := none
  recv_bytes : Option (List ℚ) := none
  send_packets : Option (List ℚ) := none
  recv_packets : Option (List ℚ) := none
  send_bytes_avg : Option ℚ := none
  recv_bytes_avg : Option ℚ := none
  send_packets_avg : Option ℚ := none
  recv_packets_avg : Option ℚ := none
deriving DecidableEq, Repr

/-- The metric iteration order of line 523. -/
def netMetrics : List String :=
  ["send_bytes", "send_packets", "recv_packets", "recv_bytes"]

/-- Python sum() over a sample array. -/
def pySum (xs : List ℚ) : ℚ := xs.foldl (fun a b => a + b) 0

/-- setattr(load, metric, data) and setattr(load, metric + avg-suffix,
sum(data) / dtime) for the four metric names the loop uses. -/
def setMetric (load : NetLoadRec) (metric : String) (data : List ℚ) (avg : ℚ) : NetLoadRec :=
  if metric = "send_bytes" then
    { load with
      send_bytes := some data
      send_bytes_avg := some avg }
  else if metric = "send_packets" then
    { load with
      send_packets := some data
      send_packets_avg := some avg }
  else if metric = "recv_packets" then
    { load with
      recv_packets := some data
      recv_packets_avg := some avg }
  else if metric = "recv_bytes" then
    { load with
      recv_bytes := some data
      recv_bytes_avg := some avg }
  else load

/-- The for loop with break and else of lines 523-530: a missing metric
breaks out, skipping the else clause, so the partially filled NetLoad object
is discarded and adapter.load stays None; completing the loop runs the else
clause, which assigns the filled NetLoad. -/
def fillNetLoad (lookup : String → Option (List ℚ)) (dtime : ℚ) :
    List String → NetLoadRec → Option NetLoadRec
  | [], load => some load
  | m :: rest, load =>
    match lookup m with
    | none => none
    | some data =>
      fillNetLoad lookup dtime rest (setMetric load m data (pySum data / dtime))

/-- Lines 519-530 for one adapter: adapter.load = None, then the NetLoad
block runs only when dtime is present and truthy (nonzero), greater than
1.0, and the host has performance data. -/
def adapterLoad (dtime : Option ℚ) (hasPerf : Bool)
    (lookup : String → Option (List ℚ)) : Option NetLoadRec :=
  match dtime with
  | none => none
  | some d =>
    if d ≠ 0 ∧ 1 < d ∧ hasPerf = true then fillNetLoad lookup d netMetrics {}
    else none

lemma fillNetLoad_some_all (lookup : String → Option (List ℚ)) (d : ℚ) :
    ∀ (ms : List String) (load out : NetLoadRec),
      fillNetLoad lookup d ms load = some out → ∀ m ∈ ms, (lookup m).isSome := by
  intro ms
  induction ms with
  | nil => intro load out _ m hm; cases hm
  | cons m0 rest ih =>
    intro load out hfill m hm
    simp only [fillNetLoad] at hfill
    cases hlk : lookup m0 with
    | none => rw [hlk] at hfill; cases hfill
    | some data =>
      rw [hlk] at hfill
      rcases List.mem_cons.1 hm with heq | hmem
      · rw [heq, hlk]; rfl
      · exact ih _ out hfill m hmem

/-- C8: for an adapter processed with a performance window longer than one
second, if any of the four metrics send_bytes, send_packets, recv_packets,
recv_bytes is absent the adapter load is left None rather than partially
populated; when all four are present the load is set with every raw series
and every derived sum/dtime average filled. -/
theorem C8_adapter_load_all_or_nothing (d : ℚ) (lookup : String → Option (List ℚ))
    (hd : 1 < d) :
    ((∃ m ∈ netMetrics, lookup m = none) → adapterLoad (some d) true lookup = none)
    ∧ ((∀ m ∈ netMetrics, (lookup m).isSome) →
      ∃ sb sp rp rb, lookup "send_bytes" = some sb ∧ lookup "send_packets" = some sp
        ∧ lookup "recv_packets" = some rp ∧ lookup "recv_bytes" = some rb
        ∧ adapterLoad (some d) true lookup = some
            { send_bytes := some sb
              recv_bytes := some rb
              send_packets := some sp
              recv_packets := some rp
              send_bytes_avg := some (pySum sb / d)
              recv_bytes_avg := some (pySum rb / d)
              send_packets_avg := some (pySum sp / d)
              recv_packets_avg := some (pySum rp / d) }) := by
  constructor
  · rintro ⟨m, hm, hnone⟩
    cases hres : adapterLoad (some d) true lookup with
    | none => rfl
    | some out =>
      exfalso
      simp only [adapterLoad] at hres
      rw [if_pos ⟨by linarith, hd, by trivial⟩] at hres
      have := fillNetLoad_some_all lookup d netMetrics {} out hres m hm
      rw [hnone] at this
      cases this
  · intro hall
    have h1 := hall "send_bytes" (by simp [netMetrics])
    have h2 := hall "send_packets" (by simp [netMetrics])
    have h3 := hall "recv_packets" (by simp [netMetrics])
    have h4 := hall "recv_bytes" (by simp [netMetrics])
    rw [Option.isSome_iff_exists] at h1 h2 h3 h4
    obtain ⟨sb, hsb⟩ := h1
    obtain ⟨sp, hsp⟩ := h2
    obtain ⟨rp, hrp⟩ := h3
    obtain ⟨rb, hrb⟩ := h4
    refine ⟨sb, sp, rp, rb, hsb, hsp, hrp, hrb, ?_⟩
    simp only [adapterLoad]
    rw [if_pos ⟨by linarith, hd, by trivial⟩]
    simp [netMetrics, fillNetLoad, hsb, hsp, hrp, hrb, setMetric]

/-- A lookup table missing recv_bytes. -/
def c8missing : String → Option (List ℚ) :=
  fun m => if m = "recv_bytes" then none else some [5, 5]

/-- A lookup table carrying every metric. -/
def c8full : String → Option (List ℚ) := fun _ => some [5, 5]

/-- Witness for C8 with a 10-second window: a missing recv_bytes leaves the
load None; a full table populates it. -/
theorem C8_adapter_load_all_or_nothing_witness :
    adapterLoad (some 10) true c8missing = none
    ∧ ∃ sb sp rp rb, c8full "send_bytes" = some sb ∧ c8full "send_packets" = some sp
      ∧ c8full "recv_packets" = some rp ∧ c8full "recv_bytes" = some rb
      ∧ adapterLoad (some 10) true c8full = some
          { send_bytes := some sb
            recv_bytes := some rb
            send_packets := some sp
            recv_packets := some rp
            send_bytes_avg := some (pySum sb / 10)
            recv_bytes_avg := some (pySum rb / 10)
            send_packets_avg := some (pySum sp / 10)
            recv_packets_avg := some (pySum rp / 10) } :=
  ⟨(C8_adapter_load_all_or_nothing 10 c8missing (by norm_num)).1
      ⟨"recv_bytes", by simp [netMetrics], rfl⟩,
   (C8_adapter_load_all_or_nothing 10 c8full (by norm_num)).2 (fun m hm => rfl)⟩

/-! ### C9 and C10: parse_lsblkjs (cluster.py 234-265) -/

/-- A child entry of a block-device JSON record. -/
structure ChildJS where
  name : String
  size : Int
  mountpoint : Option String
  fstype : Option String
deriving DecidableEq, Repr

/-- A top-level block-device JSON record as parse_lsblkjs reads it. -/
structure BlockDevJS where
  name : String
  type : String
  tran : String
  rota : String
  size : Int
  mountpoint : Option String
  fstype : Option String
  children : List ChildJS
deriving DecidableEq, Repr

/-- The two logger.warning calls of parse_lsblkjs: the non-disk skip of line
242 and the unknown-kind hdd default of line 253. -/
inductive LsblkWarn : Type
  | nonDisk (name tp : String)
  | unknownKind (name tran rota : String)
deriving DecidableEq, Repr

/-- A Mountable built for a partition (cluster.py 261-263): the weak
back-reference to the parent disk is modelled as the parent disk name. -/
structure MountableRec where
  name : String
  size : Int
  mountpoint : Option String
  fs : Option String
  parent : Option String
deriving DecidableEq, Repr

/-- A Disk as parse_lsblkjs yields it (cluster.py 257-265). -/
structure DiskRec where
  name : String
  size : Int
  mountpoint : Option String
  fs : Option String
  tp : String
  extra : BlockDevJS
  partitions : List (String × MountableRec)
deriving DecidableEq, Repr

/-- The fixed (tran, rota) classification table of lines 246-250. -/
def classifyTp (tran rota : String) : Option String :=
  dictLookup [(("sata", "1"), "hdd"), (("sata", "0"), "ssd"), (("nvme", "0"), "nvme")]
    (tran, rota)

/-- re.match(sr digits | loop digits, name) is anchored only at the start of
the string, so it is truthy exactly when the name begins with sr or loop
followed by at least one digit (the rest of the name is unconstrained). -/
def isSyntheticName (name : String) : Bool :=
  match name.toList with
  | 's' :: 'r' :: c :: _ => c.isDigit
  | 'l' :: 'o' :: 'o' :: 'p' :: c :: _ => c.isDigit
  | _ => false

/-- Lines 259-264: build the partition mapping in child order; the assert at
line 260 rejects a child name containing a slash. -/
def buildParts (diskName : String) :
    List ChildJS → List (String × MountableRec) →
    Except String (List (String × MountableRec))
  | [], acc => Except.ok acc
  | c :: rest, acc =>
    if containsChars ['/'] c.name.toList then Except.error "AssertionError"
    else
      buildParts diskName rest
        (dictInsert acc ("/dev/" ++ c.name)
          ⟨"/dev/" ++ c.name, c.size, c.mountpoint, c.fstype, some diskName⟩)

/-- parse_lsblkjs (lines 234-265): skip names matching the synthetic-device
regex; skip non-disk entries with a warning; classify the storage kind via
the fixed table, defaulting to hdd with a warning; build the Disk with its
partitions.  The returned pair is the yielded disks in order and the warnings
logged. -/
def parse_lsblkjs : List BlockDevJS → String →
    Except String (List DiskRec × List LsblkWarn)
  | [], _ => Except.ok ([], [])
  | js :: rest, hostname =>
    if isSyntheticName js.name then parse_lsblkjs rest hostname
    else if js.type ≠ "disk" then
      match parse_lsblkjs rest hostname with
      | Except.error e => Except.error e
      | Except.ok (ds, ws) => Except.ok (ds, LsblkWarn.nonDisk js.name js.type :: ws)
    else
      match buildParts ("/dev/" ++ js.name) js.children [] with
      | Except.error e => Except.error e
      | Except.ok parts =>
        match parse_lsblkjs rest hostname with
        | Except.error e => Except.error e
        | Except.ok (ds, ws) =>
          Except.ok
            (⟨"/dev/" ++ js.name, js.size, js.mountpoint, js.fstype,
              (classifyTp js.tran js.rota).getD "hdd", js, parts⟩ :: ds,
             (match classifyTp js.tran js.rota with
              | none => [LsblkWarn.unknownKind js.name js.tran js.rota]
              | some _ => []) ++ ws)

lemma parse_lsblkjs_sound :
    ∀ (data : List BlockDevJS) (hostname : String) (ds : List DiskRec)
      (ws : List LsblkWarn),
      parse_lsblkjs data hostname = Except.ok (ds, ws) →
      (∀ d ∈ ds, ∃ js ∈ data, isSyntheticName js.name = false ∧ js.type = "disk"
        ∧ d.name = "/dev/" ++ js.name
        ∧ d.tp = (classifyTp js.tran js.rota).getD "hdd"
        ∧ (classifyTp js.tran js.rota = none →
            LsblkWarn.unknownKind js.name js.tran js.rota ∈ ws))
      ∧ (∀ js ∈ data, isSyntheticName js.name = false → js.type ≠ "disk" →
          LsblkWarn.nonDisk js.name js.type ∈ ws) := by
  intro data
  induction data with
  | nil =>
    intro hostname ds ws hok
    simp only [parse_lsblkjs, Except.ok.injEq, Prod.mk.injEq] at hok
    constructor
    · intro d hd; rw [← hok.1] at hd; cases hd
    · intro js hjs; cases hjs
  | cons js rest ih =>
    intro hostname ds ws hok
    simp only [parse_lsblkjs] at hok
    by_cases hsyn : isSyntheticName js.name = true
    · rw [if_pos hsyn] at hok
      obtain ⟨hmem, hwarn⟩ := ih hostname ds ws hok
      constructor
      · intro d hd
        obtain ⟨js2, hjs2, hrest⟩ := hmem d hd
        exact ⟨js2, List.mem_cons_of_mem js hjs2, hrest⟩
      · intro js2 hjs2 hs hn
        rcases List.mem_cons.1 hjs2 with heq | hm
        · rw [heq] at hs; rw [hsyn] at hs; cases hs
        · exact hwarn js2 hm hs hn
    · rw [if_neg hsyn] at hok
      rw [Bool.not_eq_true] at hsyn
      by_cases htp : js.type = "disk"
      · rw [if_neg (by simp [htp])] at hok
        cases hbp : buildParts ("/dev/" ++ js.name) js.children [] with
        | error e => rw [hbp] at hok; cases hok
        | ok parts =>
          rw [hbp] at hok
          cases hrec : parse_lsblkjs rest hostname with
          | error e => rw [hrec] at hok; cases hok
          | ok p =>
            obtain ⟨ds2, ws2⟩ := p
            rw [hrec] at hok
            simp only [Except.ok.injEq, Prod.mk.injEq] at hok
            obtain ⟨hds, hws⟩ := hok
            subst hds hws
            obtain ⟨hmem2, hwarn2⟩ := ih hostname ds2 ws2 hrec
            constructor
            · intro d hd
              rcases List.mem_cons.1 hd with heq | hm
              · refine ⟨js, List.mem_cons_self js rest, hsyn, htp, by rw [heq], by rw [heq], ?_⟩
                intro hnone
                rw [hnone]
                simp
              · obtain ⟨js2, hjs2, q1, q2, q3, q4, q5⟩ := hmem2 d hm
                exact ⟨js2, List.mem_cons_of_mem js hjs2, q1, q2, q3, q4,
                  fun hnone => List.mem_append_right _ (q5 hnone)⟩
            · intro js2 hjs2 hs hn
              rcases List.mem_cons.1 hjs2 with heq | hm
              · rw [heq] at hn; exact absurd htp hn
              · exact List.mem_append_right _ (hwarn2 js2 hm hs hn)
      · rw [if_pos htp] at hok
        cases hrec : parse_lsblkjs rest hostname with
        | error e => rw [hrec] at hok; cases hok
        | ok p =>
          obtain ⟨ds2, ws2⟩ := p
          rw [hrec] at hok
          simp only [Except.ok.injEq, Prod.mk.injEq] at hok
          obtain ⟨hds, hws⟩ := hok
          subst hds hws
          obtain ⟨hmem2, hwarn2⟩ := ih hostname ds2 ws2 hrec
          constructor
          · intro d hd
            obtain ⟨js2, hjs2, q1, q2, q3, q4, q5⟩ := hmem2 d hd
            exact ⟨js2, List.mem_cons_of_mem js hjs2, q1, q2, q3, q4,
              fun hnone => List.mem_cons_of_mem _ (q5 hnone)⟩
          · intro js2 hjs2 hs hn
            rcases List.mem_cons.1 hjs2 with heq | hm
            · rw [heq]
              exact List.mem_cons_self _ ws2
            · exact List.mem_cons_of_mem _ (hwarn2 js2 hm hs hn)

lemma devName_inj (a b : String) (h : "/dev/" ++ a = "/dev/" ++ b) : a = b := by
  have hd := congrArg String.data h
  simp only [String.data_append] at hd
  exact String.ext (List.append_cancel_left hd)

lemma synthetic_excluded (data : List BlockDevJS) (hostname : String)
    (ds : List DiskRec) (ws : List LsblkWarn)
    (hok : parse_lsblkjs data hostname = Except.ok (ds, ws))
    (js : BlockDevJS) (hsyn : isSyntheticName js.name = true) :
    ("/dev/" ++ js.name) ∉ ds.map DiskRec.name := by
  intro hmm
  obtain ⟨d, hd, hdname⟩ := List.mem_map.1 hmm
  obtain ⟨js2, hjs2, hs2, _, hdn, _, _⟩ :=
    (parse_lsblkjs_sound data hostname ds ws hok).1 d hd
  have heq : js2.name = js.name := devName_inj _ _ (by rw [← hdn, hdname])
  rw [heq, hsyn] at hs2
  cases hs2

/-- C9: in every parsed block-device tree, entries named sr0, sr12 or loop0
yield no disk in the output whatever their other fields; every non-disk typed
non-synthetic entry is skipped with its warning; and every produced disk
comes from a disk-typed entry whose kind is the table lookup over
(tran, rota), defaulting to hdd with a warning when the pair is unknown. -/
theorem C9_lsblkjs_skip_and_classify (data : List BlockDevJS) (hostname : String)
    (ds : List DiskRec) (ws : List LsblkWarn)
    (hok : parse_lsblkjs data hostname = Except.ok (ds, ws)) :
    (∀ js ∈ data, (js.name = "sr0" ∨ js.name = "sr12" ∨ js.name = "loop0") →
      ("/dev/" ++ js.name) ∉ ds.map DiskRec.name)
    ∧ (∀ js ∈ data, isSyntheticName js.name = false → js.type ≠ "disk" →
        LsblkWarn.nonDisk js.name js.type ∈ ws)
    ∧ (∀ d ∈ ds, ∃ js ∈ data, isSyntheticName js.name = false ∧ js.type = "disk"
        ∧ d.name = "/dev/" ++ js.name
        ∧ d.tp = (classifyTp js.tran js.rota).getD "hdd"
        ∧ (classifyTp js.tran js.rota = none →
            LsblkWarn.unknownKind js.name js.tran js.rota ∈ ws)) := by
  obtain ⟨hmem, hwarn⟩ := parse_lsblkjs_sound data hostname ds ws hok
  refine ⟨?_, hwarn, hmem⟩
  intro js hjs hname
  refine synthetic_excluded data hostname ds ws hok js ?_
  rcases hname with h | h | h <;> rw [h] <;> decide

/-- A lsblk tree with a synthetic sr0 entry, a sata disk, a disk with an
unknown (scsi, 1) transport pair, and a non-disk rom entry. -/
def c9data : List BlockDevJS :=
  [⟨"sr0", "disk", "sata", "1", 50, none, none, []⟩,
   ⟨"sda", "disk", "sata", "1", 100, none, some "xfs",
     [⟨"sda1", 90, some "/", some "xfs"⟩]⟩,
   ⟨"sdb", "disk", "scsi", "1", 100, none, none, []⟩,
   ⟨"fd0", "rom", "", "", 1, none, none, []⟩]

def c9disks : List DiskRec :=
  [⟨"/dev/sda", 100, none, some "xfs", "hdd",
     ⟨"sda", "disk", "sata", "1", 100, none, some "xfs",
       [⟨"sda1", 90, some "/", some "xfs"⟩]⟩,
     [("/dev/sda1", ⟨"/dev/sda1", 90, some "/", some "xfs", some "/dev/sda"⟩)]⟩,
   ⟨"/dev/sdb", 100, none, none, "hdd",
     ⟨"sdb", "disk", "scsi", "1", 100, none, none, []⟩, []⟩]

def c9warns : List LsblkWarn :=
  [LsblkWarn.unknownKind "sdb" "scsi" "1", LsblkWarn.nonDisk "fd0" "rom"]

/-- Witness for C9 at c9data: the parse result is the two classified disks
with the two warnings, sr0 yields no output disk, and the rom entry warns. -/
theorem C9_lsblkjs_skip_and_classify_witness :
    parse_lsblkjs c9data "host1" = Except.ok (c9disks, c9warns)
    ∧ ("/dev/" ++ "sr0") ∉ c9disks.map DiskRec.name
    ∧ LsblkWarn.nonDisk "fd0" "rom" ∈ c9warns
    ∧ LsblkWarn.unknownKind "sdb" "scsi" "1" ∈ c9warns := by
  have hok : parse_lsblkjs c9data "host1" = Except.ok (c9disks, c9warns) := by decide
  have h := C9_lsblkjs_skip_and_classify c9data "host1" c9disks c9warns hok
  refine ⟨hok, ?_, ?_, by decide⟩
  · exact h.1 ⟨"sr0", "disk", "sata", "1", 50, none, none, []⟩ (by decide) (Or.inl rfl)
  · exact h.2.1 ⟨"fd0", "rom", "", "", 1, none, none, []⟩ (by decide) (by decide) (by decide)

lemma isSyntheticName_of_sr (name : String) (c : Char) (tail : List Char)
    (h : name.toList = 's' :: 'r' :: c :: tail) (hc : c.isDigit = true) :
    isSyntheticName name = true := by
  unfold isSyntheticName
  rw [h]
  exact hc

lemma isSyntheticName_of_loop (name : String) (c : Char) (tail : List Char)
    (h : name.toList = 'l' :: 'o' :: 'o' :: 'p' :: c :: tail) (hc : c.isDigit = true) :
    isSyntheticName name = true := by
  unfold isSyntheticName
  rw [h]
  exact hc

/-- C10: the synthetic-device exclusion is only anchored at the start of the
name: every top-level entry whose name merely begins with sr followed by
digits, or loop followed by digits, yields no disk in the output, whatever
follows the digits (for example sr0backup). -/
theorem C10_synthetic_skip_anchored_only (data : List BlockDevJS) (hostname : String)
    (ds : List DiskRec) (ws : List LsblkWarn)
    (hok : parse_lsblkjs data hostname = Except.ok (ds, ws))
    (js : BlockDevJS) (hjs : js ∈ data)
    (h : (∃ dchars rest, js.name.toList = ['s', 'r'] ++ dchars ++ rest
            ∧ dchars ≠ [] ∧ ∀ c ∈ dchars, c.isDigit = true)
      ∨ (∃ dchars rest, js.name.toList = ['l', 'o', 'o', 'p'] ++ dchars ++ rest
            ∧ dchars ≠ [] ∧ ∀ c ∈ dchars, c.isDigit = true)) :
    ("/dev/" ++ js.name) ∉ ds.map DiskRec.name := by
  refine synthetic_excluded data hostname ds ws hok js ?_
  rcases h with ⟨dchars, rest, hlist, hne, hdig⟩ | ⟨dchars, rest, hlist, hne, hdig⟩
  · cases dchars with
    | nil => exact absurd rfl hne
    | cons c cs =>
      exact isSyntheticName_of_sr js.name c (cs ++ rest) (by simpa using hlist)
        (hdig c (List.mem_cons_self c cs))
  · cases dchars with
    | nil => exact absurd rfl hne
    | cons c cs =>
      exact isSyntheticName_of_loop js.name c (cs ++ rest) (by simpa using hlist)
        (hdig c (List.mem_cons_self c cs))

/-- The single-entry tree whose name sr0backup merely begins with sr0. -/
def c10data : List BlockDevJS :=
  [⟨"sr0backup", "disk", "sata", "1", 100, none, none, []⟩]

/-- Witness for C10: the sr0backup entry is excluded even though its name is
not exactly of the sr-number form, so the parse yields no disks. -/
theorem C10_synthetic_skip_anchored_only_witness :
    parse_lsblkjs c10data "host1" = Except.ok ([], [])
    ∧ ("/dev/" ++ "sr0backup") ∉ ([] : List DiskRec).map DiskRec.name := by
  have hok : parse_lsblkjs c10data "host1" = Except.ok ([], []) := by decide
  refine ⟨hok, ?_⟩
  exact C10_synthetic_skip_anchored_only c10data "host1" [] [] hok
    ⟨"sr0backup", "disk", "sata", "1", 100, none, none, []⟩ (by decide)
    (Or.inl ⟨['0'], "backup".toList, by decide, by decide, by decide⟩)
